import Mathlib

/-!
Verification development for BioProv's provenance-graph assembler
(`bioprov/src/prov.py`, class `BioProvDocument`).

The assembler in `prov.py` is embedded as pure Lean functions returning
`Except BioProvError`.  The domain model (Project, Sample, File, Program,
Run, EnvProv) and the behaviour of the `prov` graph library (namespace
registry, node factory, relation wirer) live outside the sources given
here and are modelled from the specification, as marked in the doc
comments below.
-/

/-- Modelled from the spec: a Run (§3) carries a start time, an end time,
an exit status and a user identifier; the Run class itself is outside the
given sources.  Timestamps are modelled as naturals with their order. -/
structure Run where
  start_time : Nat
  end_time : Nat
  status : Int
  user : String
deriving DecidableEq, Repr

/-- Modelled from the spec: a Program (§3) has a name and a mapping from
run index (stringified 1-based integer) to Run; the mapping is an
insertion-ordered association list, as a Python dict.  `namespaceRef` and
`provActivity` model the back-reference attributes `program.namespace`
and `program.ProvActivity` that `prov.py` writes onto the object, stored
by identifier. -/
structure Program where
  name : String
  runs : List (String × Run)
  namespaceRef : Option String
  provActivity : Option String
deriving DecidableEq, Repr

/-- Modelled from the spec: a File (§3) has a name, a path, an existence
flag and arbitrary metadata (here already flattened to string pairs).
`fileExists` models the Python attribute `exists` (a Lean keyword);
`namespaceRef` and `provEntity` model the back-references `file.namespace`
and `file.ProvEntity` written by `prov.py`. -/
structure File where
  name : String
  path : String
  fileExists : Bool
  attributes : List (String × String)
  namespaceRef : Option String
  provEntity : Option String
deriving DecidableEq, Repr

/-- Modelled from the spec: a Sample (§3) has a name, a key → File map and
a key → Program map.  `provBundle` and `provEntity` model the
back-references `sample.ProvBundle` and `sample.ProvEntity`. -/
structure Sample where
  name : String
  files : List (String × File)
  programs : List (String × Program)
  provBundle : Option String
  provEntity : Option String
deriving DecidableEq, Repr

/-- Modelled from the spec: an Environment (§3) is a snapshot with a
stable signature (its display string), an attribute dictionary
`env_dict` and a namespace label `env_namespace`; the EnvProv class is
outside the given sources. -/
structure EnvProv where
  signature : String
  env_dict : List (String × String)
  env_namespace : String
deriving DecidableEq, Repr

/-- Modelled from the spec: a Project (§3) has a tag, a sample-id → Sample
map and a user → Environment map.  `namespaceRef` and `entityRef` model
the back-references `project.namespace` and `project.entity` written by
`prov.py`. -/
structure Project where
  tag : String
  samples : List (String × Sample)
  envs : List (String × EnvProv)
  namespaceRef : Option String
  entityRef : Option String
deriving DecidableEq, Repr

/-- Failure modes of an assembly.  `keyError` is Python's KeyError raised
by the run lookup `program.runs[str(len(program.runs))]` in
`_iter_samples`; the remaining constructors are the error taxonomy of
spec §7 for the components modelled from the spec (`emptyRunHistoryError`
is included so that the spec's claim about it can be stated; the embedded
code never produces it). -/
inductive BioProvError where
  | keyError (key : String)
  | duplicateNamespaceError (pfx : String)
  | duplicateNodeError (id : String)
  | invalidActivityWindowError (id : String)
  | emptyRunHistoryError
  | danglingReferenceError (src tgt : String)
  | invalidProjectError
  | encodingError
deriving DecidableEq, Repr

/-- Node kinds of the provenance graph (spec §3: Entity, Activity, Agent). -/
inductive RecKind where
  | entity
  | activity
  | agent
deriving DecidableEq, Repr

/-- Relation kinds of the provenance graph (spec §3). -/
inductive RelKind where
  | derivation
  | association
  | generation
  | attribution
deriving DecidableEq, Repr

/-- A graph node: kind, identifier, attribute pairs, and (for activities)
a start and end time. -/
structure ProvRecord where
  kind : RecKind
  id : String
  attributes : List (String × String)
  startTime : Option Nat
  endTime : Option Nat
deriving DecidableEq, Repr

/-- A typed edge between two node identifiers (spec §3). -/
structure ProvRelation where
  kind : RelKind
  source : String
  target : String
deriving DecidableEq, Repr

/-- A per-sample sub-graph (spec §3): its identifier, default namespace,
local namespace table (prefix, uri), records and relations. -/
structure ProvBundle where
  identifier : String
  defaultNs : Option String
  namespaces : List (String × String)
  records : List ProvRecord
  relations : List ProvRelation
deriving DecidableEq, Repr

/-- The provenance document: global namespace table (prefix, uri),
document-level records and relations, and the sample bundles. -/
structure ProvDocument where
  namespaces : List (String × String)
  records : List ProvRecord
  relations : List ProvRelation
  bundles : List ProvBundle
deriving DecidableEq, Repr

/-- All node identifiers present anywhere in the document: document-level
records and the records of every bundle (spec §4.3's collision scope). -/
def allNodeIds (d : ProvDocument) : List String :=
  d.records.map ProvRecord.id ++ d.bundles.flatMap (fun b => b.records.map ProvRecord.id)

/-- Modelled from the spec: the Namespace Registry (§4.2) at document
scope.  Fails with `duplicateNamespaceError` when the prefix is already
registered in this scope; otherwise appends. -/
def addNamespaceD (d : ProvDocument) (pfx uri : String) : Except BioProvError ProvDocument :=
  if pfx ∈ d.namespaces.map Prod.fst then .error (.duplicateNamespaceError pfx)
  else .ok { d with namespaces := d.namespaces ++ [(pfx, uri)] }

/-- Modelled from the spec: the Namespace Registry (§4.2) at bundle
scope. -/
def addNamespaceB (b : ProvBundle) (pfx uri : String) : Except BioProvError ProvBundle :=
  if pfx ∈ b.namespaces.map Prod.fst then .error (.duplicateNamespaceError pfx)
  else .ok { b with namespaces := b.namespaces ++ [(pfx, uri)] }

/-- Modelled from the spec: the Node Factory (§4.3) creating an entity at
document level.  Fails with `duplicateNodeError` when the identifier
already exists anywhere in the document. -/
def entityD (d : ProvDocument) (id : String) (attrs : List (String × String)) :
    Except BioProvError ProvDocument :=
  if id ∈ allNodeIds d then .error (.duplicateNodeError id)
  else .ok { d with records := d.records ++ [ProvRecord.mk RecKind.entity id attrs none none] }

/-- Modelled from the spec: the Node Factory (§4.3) creating an agent at
document level. -/
def agentD (d : ProvDocument) (id : String) : Except BioProvError ProvDocument :=
  if id ∈ allNodeIds d then .error (.duplicateNodeError id)
  else .ok { d with records := d.records ++ [ProvRecord.mk RecKind.agent id [] none none] }

/-- Modelled from the spec: the Node Factory (§4.3) creating an entity in
a bundle; the collision scope is the whole document plus the bundle under
construction. -/
def entityB (d : ProvDocument) (b : ProvBundle) (id : String)
    (attrs : List (String × String)) : Except BioProvError ProvBundle :=
  if id ∈ allNodeIds d ++ b.records.map ProvRecord.id then .error (.duplicateNodeError id)
  else .ok { b with records := b.records ++ [ProvRecord.mk RecKind.entity id attrs none none] }

/-- Modelled from the spec: the Node Factory (§4.3) creating an activity
in a bundle; requires start ≤ end (`invalidActivityWindowError`
otherwise). -/
def activityB (d : ProvDocument) (b : ProvBundle) (id : String) (startT endT : Nat) :
    Except BioProvError ProvBundle :=
  if id ∈ allNodeIds d ++ b.records.map ProvRecord.id then .error (.duplicateNodeError id)
  else if startT ≤ endT then
    .ok { b with records :=
      b.records ++ [ProvRecord.mk RecKind.activity id [] (some startT) (some endT)] }
  else .error (.invalidActivityWindowError id)

/-- Modelled from the spec: the Relation Wirer's derivation edge (§4.5)
inside a bundle; both endpoints must already be recorded in the bundle. -/
def wasDerivedFromB (b : ProvBundle) (src tgt : String) : Except BioProvError ProvBundle :=
  if src ∈ b.records.map ProvRecord.id ∧ tgt ∈ b.records.map ProvRecord.id then
    .ok { b with relations := b.relations ++ [ProvRelation.mk RelKind.derivation src tgt] }
  else .error (.danglingReferenceError src tgt)

/-- Modelled from the spec: the Attribute Encoder (§4.1, the source's
`bioprov.utils.build_prov_attributes`, outside the given sources): each
key is qualified as `prefix:key`; values (already flattened to strings in
this model) pass through; output order is input order. -/
def build_prov_attributes (attributes : List (String × String)) (pfx : String) :
    List (String × String) :=
  attributes.map (fun kv => (pfx ++ ":" ++ kv.1, kv.2))

/-- Modelled from the spec: the display string of a Project (its
`__str__` is outside the given sources); a Project is identified by its
tag. -/
def strProject (p : Project) : String := p.tag

/-- Modelled from the spec: the display string of a Program (its
`__str__` is outside the given sources); a Program is identified by its
name. -/
def strProgram (p : Program) : String := p.name

/-- Modelled from the spec: the display string of an Environment is its
stable signature. -/
def strEnv (e : EnvProv) : String := e.signature

/-- Modelled from the spec: `file.__dict__` at the time the file entity's
attributes are encoded in `_iter_samples` — the File's own attributes
(name, path, existence flag, metadata) plus the `namespace` back-reference
that was assigned on the previous line; values as display strings. -/
def File.dict (f : File) : List (String × String) :=
  [("name", f.name), ("path", f.path), ("exists", toString f.fileExists)]
    ++ f.attributes ++ [("namespace", f.name)]

/-- Modelled from the spec: `project.__dict__` filtered by
`_add_project_namespace` (keys `_samples` and `files` excluded) at the
time the project entity's attributes are encoded — the tag, the
environment map flattened to a string, and the `namespace` back-reference
assigned just before. -/
def Project.dictFiltered (p : Project) : List (String × String) :=
  [("tag", p.tag), ("envs", String.intercalate "," (p.envs.map Prod.fst)),
   ("namespace", "project")]

/-- One step of the file loop in `_iter_samples` (lines 208–220 of
`prov.py`): register a bundle namespace whose prefix is the file's name
and whose uri is `str(file.path)`, store the namespace back-reference,
create the file's entity `"<sample>.files:<name>"` with attributes
encoded from `file.__dict__`, store the entity back-reference, and wire
`wasDerivedFrom(file entity, sample entity)`. -/
def processFile (d : ProvDocument) (fnsPfx sid : String) (b : ProvBundle) (f : File) :
    Except BioProvError (ProvBundle × File) :=
  match addNamespaceB b f.name f.path with
  | .error e => .error e
  | .ok b₁ =>
    let f₁ := { f with namespaceRef := some f.name }
    let fid := fnsPfx ++ ":" ++ f₁.name
    match entityB d b₁ fid (build_prov_attributes (File.dict f₁) f₁.name) with
    | .error e => .error e
    | .ok b₂ =>
      let f₂ := { f₁ with provEntity := some fid }
      match wasDerivedFromB b₂ fid sid with
      | .error e => .error e
      | .ok b₃ => .ok (b₃, f₂)

/-- The file loop of `_iter_samples`: processes the sample's files in map
order, threading the bundle and returning the files with their
back-references written. -/
def iterFiles (d : ProvDocument) (fnsPfx sid : String) :
    List (String × File) → ProvBundle → Except BioProvError (ProvBundle × List (String × File))
  | [], b => .ok (b, [])
  | kf :: rest, b =>
    match processFile d fnsPfx sid b kf.2 with
    | .error e => .error e
    | .ok (b₁, f') =>
      match iterFiles d fnsPfx sid rest b₁ with
      | .error e => .error e
      | .ok (b₂, rest') => .ok (b₂, (kf.1, f') :: rest')

/-- One step of the program loop in `_iter_samples` (lines 224–233):
register a bundle namespace whose prefix is the program's name and whose
uri is `str(program)`, store the namespace back-reference, look up
`program.runs[str(len(program.runs))]` (Python raises KeyError when the
key is absent), and create the activity
`"<sample>.programs:<name>"` with the start and end times of that run. -/
def processProgram (d : ProvDocument) (pnsPfx : String) (b : ProvBundle) (p : Program) :
    Except BioProvError (ProvBundle × Program) :=
  match addNamespaceB b p.name (strProgram p) with
  | .error e => .error e
  | .ok b₁ =>
    let p₁ := { p with namespaceRef := some p.name }
    match p₁.runs.lookup (toString p₁.runs.length) with
    | none => .error (.keyError (toString p₁.runs.length))
    | some lastRun =>
      let aid := pnsPfx ++ ":" ++ p₁.name
      match activityB d b₁ aid lastRun.start_time lastRun.end_time with
      | .error e => .error e
      | .ok b₂ => .ok (b₂, { p₁ with provActivity := some aid })

/-- The program loop of `_iter_samples`. -/
def iterPrograms (d : ProvDocument) (pnsPfx : String) :
    List (String × Program) → ProvBundle →
      Except BioProvError (ProvBundle × List (String × Program))
  | [], b => .ok (b, [])
  | kp :: rest, b =>
    match processProgram d pnsPfx b kp.2 with
    | .error e => .error e
    | .ok (b₁, p') =>
      match iterPrograms d pnsPfx rest b₁ with
      | .error e => .error e
      | .ok (b₂, rest') => .ok (b₂, (kp.1, p') :: rest')

/-- The body of `_iter_samples` for one sample (lines 192–233): open the
bundle `samples:<name>`, set its default namespace to the sample's name,
create the sample entity, open the bundle namespace
`"<name>.files"`, run the file loop, compute the string
`"<name>.programs"` (the source never registers it as a namespace) and
run the program loop; the finished bundle is appended to the document. -/
def iterSample (d : ProvDocument) (s : Sample) :
    Except BioProvError (ProvDocument × Sample) :=
  let b0 : ProvBundle :=
    { identifier := "samples:" ++ s.name, defaultNs := some s.name,
      namespaces := [], records := [], relations := [] }
  match entityB d b0 s.name [] with
  | .error e => .error e
  | .ok b₁ =>
    let s₁ := { s with provBundle := some ("samples:" ++ s.name), provEntity := some s.name }
    let fnsPfx := s₁.name ++ ".files"
    match addNamespaceB b₁ fnsPfx ("Files associated with Sample " ++ s₁.name) with
    | .error e => .error e
    | .ok b₂ =>
      match iterFiles d fnsPfx s₁.name s₁.files b₂ with
      | .error e => .error e
      | .ok (b₃, files') =>
        let s₂ := { s₁ with files := files' }
        let pnsPfx := s₂.name ++ ".programs"
        match iterPrograms d pnsPfx s₂.programs b₃ with
        | .error e => .error e
        | .ok (b₄, programs') =>
          .ok ({ d with bundles := d.bundles ++ [b₄] }, { s₂ with programs := programs' })

/-- The sample loop of `_iter_samples`: `for _, sample in
self.project.items()`. -/
def iterSamples (d : ProvDocument) :
    List (String × Sample) → Except BioProvError (ProvDocument × List (String × Sample))
  | [] => .ok (d, [])
  | ks :: rest =>
    match iterSample d ks.2 with
    | .error e => .error e
    | .ok (d₁, s') =>
      match iterSamples d₁ rest with
      | .error e => .error e
      | .ok (d₂, rest') => .ok (d₂, (ks.1, s') :: rest')

/-- `_add_project_namespace` (lines 153–172): register the global
namespace `project` with uri `str(project)`, store the namespace
back-reference, and create the project entity `"project:<str>"`, with
attributes from the filtered `project.__dict__` when `add_attributes`. -/
def add_project_namespace (d : ProvDocument) (p : Project) (addAttrs : Bool) :
    Except BioProvError (ProvDocument × Project) :=
  match addNamespaceD d "project" (strProject p) with
  | .error e => .error e
  | .ok d₁ =>
    let p₁ := { p with namespaceRef := some "project" }
    let attrs := if addAttrs then build_prov_attributes (Project.dictFiltered p₁) "project" else []
    match entityD d₁ ("project:" ++ strProject p₁) attrs with
    | .error e => .error e
    | .ok d₂ => .ok (d₂, { p₁ with entityRef := some ("project:" ++ strProject p₁) })

/-- `_add_samples_namespace` (lines 181–186). -/
def add_samples_namespace (d : ProvDocument) (tag : String) :
    Except BioProvError ProvDocument :=
  addNamespaceD d "samples"
    ("Samples associated with bioprov Project \x27" ++ tag ++ "\x27")

/-- `_add_activities_namespace` (lines 241–253): the `activities`
namespace is only registered when the document has no namespaces yet. -/
def add_activities_namespace (d : ProvDocument) (tag : String) :
    Except BioProvError ProvDocument :=
  if d.namespaces.length = 0 then
    addNamespaceD d "activities"
      ("Activities associated with bioprov Project \x27" ++ tag ++ "\x27")
  else .ok d

/-- The environment/user loop of `_add_env_and_user_namespace`
(lines 128–139): per map entry an `envs:<str(env)>` entity (with encoded
`env_dict` attributes when `add_attributes`) and a `users:<user>` agent. -/
def iterEnvs (d : ProvDocument) (addAttrs : Bool) :
    List (String × EnvProv) → Except BioProvError ProvDocument
  | [] => .ok d
  | ue :: rest =>
    let attrs := if addAttrs then build_prov_attributes ue.2.env_dict ue.2.env_namespace else []
    match entityD d ("envs:" ++ strEnv ue.2) attrs with
    | .error e => .error e
    | .ok d₁ =>
      match agentD d₁ ("users:" ++ ue.1) with
      | .error e => .error e
      | .ok d₂ => iterEnvs d₂ addAttrs rest

/-- `_add_env_and_user_namespace` (lines 120–139): register the global
namespaces `envs` and `users`, then run the environment/user loop. -/
def add_env_and_user_namespace (d : ProvDocument) (p : Project) (addAttrs : Bool) :
    Except BioProvError ProvDocument :=
  match addNamespaceD d "envs"
      ("Environments associated with BioProv Project \x27" ++ p.tag ++ "\x27") with
  | .error e => .error e
  | .ok d₁ =>
    match addNamespaceD d₁ "users"
        ("Users associated with BioProv Project \x27" ++ p.tag ++ "\x27") with
    | .error e => .error e
    | .ok d₂ => iterEnvs d₂ addAttrs p.envs

/-- `_add_relationships` (lines 265–266): the body is `pass`; no edge is
added. -/
def add_relationships (d : ProvDocument) : ProvDocument := d

/-- `BioProvDocument.__init__` with `_add_project_namespaces=True`
(lines 78–118): starting from an empty document, run
`_add_project_namespace`, `_add_samples_namespace`,
`_add_activities_namespace`, `_add_env_and_user_namespace`,
`_iter_samples`, then `_add_relationships`.  Returns the document and
the project with the back-references assembly wrote onto it. -/
def BioProvDocument.build (p : Project) (addAttrs : Bool) :
    Except BioProvError (ProvDocument × Project) :=
  let d0 : ProvDocument := { namespaces := [], records := [], relations := [], bundles := [] }
  match add_project_namespace d0 p addAttrs with
  | .error e => .error e
  | .ok (d₁, p₁) =>
    match add_samples_namespace d₁ p₁.tag with
    | .error e => .error e
    | .ok d₂ =>
      match add_activities_namespace d₂ p₁.tag with
      | .error e => .error e
      | .ok d₃ =>
        match add_env_and_user_namespace d₃ p₁ addAttrs with
        | .error e => .error e
        | .ok d₄ =>
          match iterSamples d₄ p₁.samples with
          | .error e => .error e
          | .ok (d₅, samples') =>
            .ok (add_relationships d₅, { p₁ with samples := samples' })

/-- The scenario project of spec §8: tag `demo`, one sample `S1` holding
one file `reads` and one program `prodigal` with a single run. -/
def demoRun : Run := { start_time := 0, end_time := 1, status := 0, user := "u" }

/-- The program `prodigal` of the demo project, with its single run under
key `"1"`. -/
def demoProgram : Program :=
  { name := "prodigal", runs := [("1", demoRun)], namespaceRef := none, provActivity := none }

/-- The file `reads` of the demo project. -/
def demoFile : File :=
  { name := "reads", path := "/x/reads.fq", fileExists := true, attributes := [],
    namespaceRef := none, provEntity := none }

/-- The sample `S1` of the demo project. -/
def demoSample : Sample :=
  { name := "S1", files := [("reads", demoFile)], programs := [("prodigal", demoProgram)],
    provBundle := none, provEntity := none }

/-- The demo project itself (no environments). -/
def demoProject : Project :=
  { tag := "demo", samples := [("S1", demoSample)], envs := [],
    namespaceRef := none, entityRef := none }

/-- A project whose single program has zero runs. -/
def zeroRunProgram : Program :=
  { name := "prodigal", runs := [], namespaceRef := none, provActivity := none }

/-- The sample holding the zero-run program (no files). -/
def zeroRunSample : Sample :=
  { name := "S1", files := [], programs := [("prodigal", zeroRunProgram)],
    provBundle := none, provEntity := none }

/-- The zero-run project. -/
def zeroRunProject : Project :=
  { tag := "demo", samples := [("S1", zeroRunSample)], envs := [],
    namespaceRef := none, entityRef := none }

/-- A second file that shares the name `reads` with `demoFile`. -/
def demoFileDup : File :=
  { name := "reads", path := "/y/reads.fq", fileExists := true, attributes := [],
    namespaceRef := none, provEntity := none }

/-- A sample holding two files with the same name. -/
def dupSample : Sample :=
  { name := "S1", files := [("f1", demoFile), ("f2", demoFileDup)], programs := [],
    provBundle := none, provEntity := none }

/-- The project with two same-named files in one sample. -/
def dupProject : Project :=
  { tag := "demo", samples := [("S1", dupSample)], envs := [],
    namespaceRef := none, entityRef := none }

/-- The document produced by assembling the demo project (computed value,
checked by `rfl` wherever it is used). -/
def demoDoc : ProvDocument :=
  { namespaces :=
      [("project", "demo"),
       ("samples", "Samples associated with bioprov Project \x27demo\x27"),
       ("envs", "Environments associated with BioProv Project \x27demo\x27"),
       ("users", "Users associated with BioProv Project \x27demo\x27")],
    records :=
      [{ kind := RecKind.entity, id := "project:demo",
         attributes :=
           [("project:tag", "demo"), ("project:envs", ""), ("project:namespace", "project")],
         startTime := none, endTime := none }],
    relations := [],
    bundles :=
      [{ identifier := "samples:S1", defaultNs := some "S1",
         namespaces :=
           [("S1.files", "Files associated with Sample S1"),
            ("reads", "/x/reads.fq"),
            ("prodigal", "prodigal")],
         records :=
           [{ kind := RecKind.entity, id := "S1", attributes := [],
              startTime := none, endTime := none },
            { kind := RecKind.entity, id := "S1.files:reads",
              attributes :=
                [("reads:name", "reads"), ("reads:path", "/x/reads.fq"),
                 ("reads:exists", "true"), ("reads:namespace", "reads")],
              startTime := none, endTime := none },
            { kind := RecKind.activity, id := "S1.programs:prodigal", attributes := [],
              startTime := some 0, endTime := some 1 }],
         relations :=
           [{ kind := RelKind.derivation, source := "S1.files:reads", target := "S1" }] }] }

/-- The demo project as returned by assembly, with the back-references
written onto it. -/
def demoProjectAfter : Project :=
  { tag := "demo",
    samples :=
      [("S1",
        { name := "S1",
          files :=
            [("reads",
              { name := "reads", path := "/x/reads.fq", fileExists := true, attributes := [],
                namespaceRef := some "reads", provEntity := some "S1.files:reads" })],
          programs :=
            [("prodigal",
              { name := "prodigal", runs := [("1", demoRun)],
                namespaceRef := some "prodigal",
                provActivity := some "S1.programs:prodigal" })],
          provBundle := some "samples:S1", provEntity := some "S1" })],
    envs := [], namespaceRef := some "project", entityRef := some "project:demo" }

/-- The back-references the file loop writes onto a (key, File) entry. -/
def fileUpdated (fnsPfx : String) (kf : String × File) : String × File :=
  (kf.1, { kf.2 with namespaceRef := some kf.2.name,
                     provEntity := some (fnsPfx ++ ":" ++ kf.2.name) })

/-- The back-references the program loop writes onto a (key, Program)
entry. -/
def progUpdated (pnsPfx : String) (kp : String × Program) : String × Program :=
  (kp.1, { kp.2 with namespaceRef := some kp.2.name,
                     provActivity := some (pnsPfx ++ ":" ++ kp.2.name) })

/-- The back-references `_iter_samples` writes onto a Sample. -/
def sampleUpdated (s : Sample) : Sample :=
  { s with provBundle := some ("samples:" ++ s.name), provEntity := some s.name,
           files := s.files.map (fileUpdated (s.name ++ ".files")),
           programs := s.programs.map (progUpdated (s.name ++ ".programs")) }

/-- Expected local namespace table of a sample's bundle: the
`<sample>.files` namespace, then one namespace per file (prefix = file
name, uri = file path), then one per program (prefix = program name,
uri = str(program)). -/
def expectedBundleNs (s : Sample) : List (String × String) :=
  (s.name ++ ".files", "Files associated with Sample " ++ s.name)
    :: (s.files.map (fun kf => (kf.2.name, kf.2.path))
        ++ s.programs.map (fun kp => (kp.2.name, strProgram kp.2)))

/-- Expected (kind, identifier) sequence of a sample's bundle records:
the sample entity, one entity per file, one activity per program. -/
def expectedBundleRecs (s : Sample) : List (RecKind × String) :=
  (RecKind.entity, s.name)
    :: (s.files.map (fun kf => (RecKind.entity, s.name ++ ".files" ++ ":" ++ kf.2.name))
        ++ s.programs.map (fun kp => (RecKind.activity, s.name ++ ".programs" ++ ":" ++ kp.2.name)))

/-- Expected relation list of a sample's bundle: exactly one derivation
per file, from the file's entity to the sample's entity. -/
def expectedBundleRels (s : Sample) : List ProvRelation :=
  s.files.map (fun kf =>
    ProvRelation.mk RelKind.derivation (s.name ++ ".files" ++ ":" ++ kf.2.name) s.name)

/-- The global namespace prefixes of a document together with the local
prefixes of all its bundles. -/
def docNsNames (d : ProvDocument) : List String :=
  d.namespaces.map Prod.fst ++ d.bundles.flatMap (fun b => b.namespaces.map Prod.fst)

/-- All relations of a document: document-level ones and every bundle's. -/
def docRelations (d : ProvDocument) : List ProvRelation :=
  d.relations ++ d.bundles.flatMap ProvBundle.relations

theorem addNamespaceD_ok {d : ProvDocument} {pfx uri : String} {d' : ProvDocument}
    (h : addNamespaceD d pfx uri = .ok d') :
    d' = { d with namespaces := d.namespaces ++ [(pfx, uri)] }
      ∧ pfx ∉ d.namespaces.map Prod.fst := by
  by_cases hmem : pfx ∈ d.namespaces.map Prod.fst
  · simp [addNamespaceD, hmem] at h
  · simp [addNamespaceD, hmem] at h
    exact ⟨h.symm, hmem⟩

theorem addNamespaceB_ok {b : ProvBundle} {pfx uri : String} {b' : ProvBundle}
    (h : addNamespaceB b pfx uri = .ok b') :
    b' = { b with namespaces := b.namespaces ++ [(pfx, uri)] }
      ∧ pfx ∉ b.namespaces.map Prod.fst := by
  by_cases hmem : pfx ∈ b.namespaces.map Prod.fst
  · simp [addNamespaceB, hmem] at h
  · simp [addNamespaceB, hmem] at h
    exact ⟨h.symm, hmem⟩

theorem entityD_ok {d : ProvDocument} {id : String} {attrs : List (String × String)}
    {d' : ProvDocument} (h : entityD d id attrs = .ok d') :
    d' = { d with records := d.records ++ [ProvRecord.mk RecKind.entity id attrs none none] } := by
  by_cases hmem : id ∈ allNodeIds d
  · simp [entityD, hmem] at h
  · simp [entityD, hmem] at h
    exact h.symm

theorem agentD_ok {d : ProvDocument} {id : String} {d' : ProvDocument}
    (h : agentD d id = .ok d') :
    d' = { d with records := d.records ++ [ProvRecord.mk RecKind.agent id [] none none] } := by
  by_cases hmem : id ∈ allNodeIds d
  · simp [agentD, hmem] at h
  · simp [agentD, hmem] at h
    exact h.symm

theorem entityB_ok {d : ProvDocument} {b : ProvBundle} {id : String}
    {attrs : List (String × String)} {b' : ProvBundle}
    (h : entityB d b id attrs = .ok b') :
    b' = { b with records := b.records ++ [ProvRecord.mk RecKind.entity id attrs none none] } := by
  by_cases hmem : id ∈ allNodeIds d ++ b.records.map ProvRecord.id
  · simp [entityB, hmem] at h
  · simp [entityB, hmem] at h
    exact h.symm

theorem activityB_ok {d : ProvDocument} {b : ProvBundle} {id : String} {startT endT : Nat}
    {b' : ProvBundle} (h : activityB d b id startT endT = .ok b') :
    b' = { b with records :=
      b.records ++ [ProvRecord.mk RecKind.activity id [] (some startT) (some endT)] } := by
  by_cases hmem : id ∈ allNodeIds d ++ b.records.map ProvRecord.id
  · simp [activityB, hmem] at h
  · by_cases hle : startT ≤ endT
    · simp [activityB, hmem, hle] at h
      exact h.symm
    · simp [activityB, hmem, hle] at h

theorem wasDerivedFromB_ok {b : ProvBundle} {src tgt : String} {b' : ProvBundle}
    (h : wasDerivedFromB b src tgt = .ok b') :
    b' = { b with relations := b.relations ++ [ProvRelation.mk RelKind.derivation src tgt] } := by
  by_cases hmem : src ∈ b.records.map ProvRecord.id ∧ tgt ∈ b.records.map ProvRecord.id
  · simp only [wasDerivedFromB, if_pos hmem] at h
    simp at h
    exact h.symm
  · simp only [wasDerivedFromB, if_neg hmem] at h
    exact Except.noConfusion h

theorem processFile_ok {d : ProvDocument} {fnsPfx sid : String} {b : ProvBundle} {f : File}
    {b' : ProvBundle} {f' : File} (h : processFile d fnsPfx sid b f = .ok (b', f')) :
    b'.namespaces = b.namespaces ++ [(f.name, f.path)]
    ∧ b'.records.map (fun r => (r.kind, r.id)) =
        b.records.map (fun r => (r.kind, r.id)) ++ [(RecKind.entity, fnsPfx ++ ":" ++ f.name)]
    ∧ b'.relations =
        b.relations ++ [ProvRelation.mk RelKind.derivation (fnsPfx ++ ":" ++ f.name) sid]
    ∧ f' = { f with namespaceRef := some f.name, provEntity := some (fnsPfx ++ ":" ++ f.name) }
    ∧ f.name ∉ b.namespaces.map Prod.fst := by
  unfold processFile at h
  dsimp only at h
  split at h
  next e heq => exact Except.noConfusion h
  next b₁ heq =>
    obtain ⟨hb₁, hns⟩ := addNamespaceB_ok heq
    subst hb₁
    split at h
    next e heq₂ => exact Except.noConfusion h
    next b₂ heq₂ =>
      have hb₂ := entityB_ok heq₂
      subst hb₂
      split at h
      next e heq₃ => exact Except.noConfusion h
      next b₃ heq₃ =>
        have hb₃ := wasDerivedFromB_ok heq₃
        subst hb₃
        simp only [Except.ok.injEq, Prod.mk.injEq] at h
        obtain ⟨hb, hf⟩ := h
        subst hb
        subst hf
        refine ⟨by simp, by simp, by simp, by simp, hns⟩

theorem iterFiles_ok {d : ProvDocument} {fnsPfx sid : String} :
    ∀ {fs : List (String × File)} {b b' : ProvBundle} {fs' : List (String × File)},
    iterFiles d fnsPfx sid fs b = .ok (b', fs') →
    b'.namespaces = b.namespaces ++ fs.map (fun kf => (kf.2.name, kf.2.path))
    ∧ b'.records.map (fun r => (r.kind, r.id)) =
        b.records.map (fun r => (r.kind, r.id))
          ++ fs.map (fun kf => (RecKind.entity, fnsPfx ++ ":" ++ kf.2.name))
    ∧ b'.relations = b.relations
        ++ fs.map (fun kf => ProvRelation.mk RelKind.derivation (fnsPfx ++ ":" ++ kf.2.name) sid)
    ∧ fs' = fs.map (fileUpdated fnsPfx)
    ∧ (fs.map (fun kf => kf.2.name)).Nodup
    ∧ (∀ kf ∈ fs, kf.2.name ∉ b.namespaces.map Prod.fst) := by
  intro fs
  induction fs with
  | nil =>
    intro b b' fs' h
    simp only [iterFiles, Except.ok.injEq, Prod.mk.injEq] at h
    obtain ⟨hb, hfs⟩ := h
    subst hb; subst hfs
    simp
  | cons kf rest ih =>
    intro b b' fs' h
    simp only [iterFiles] at h
    split at h
    next e heq => exact Except.noConfusion h
    next b₁ f₁ heq =>
      obtain ⟨hns, hrec, hrel, hf, hnotmem⟩ := processFile_ok heq
      split at h
      next e heq₂ => exact Except.noConfusion h
      next b₂ rest₂ heq₂ =>
        obtain ⟨ihns, ihrec, ihrel, ihfs, ihnd, ihmem⟩ := ih heq₂
        simp only [Except.ok.injEq, Prod.mk.injEq] at h
        obtain ⟨hb, hfs⟩ := h
        subst hb; subst hfs
        have hmem₁ : ∀ kg ∈ rest, kg.2.name ∉ b.namespaces.map Prod.fst ∧ kg.2.name ≠ kf.2.name := by
          intro kg hg
          have := ihmem kg hg
          rw [hns] at this
          simp only [List.map_append, List.mem_append, List.map_cons, List.map_nil,
            List.mem_singleton, not_or] at this
          exact ⟨this.1, this.2⟩
        constructor
        · rw [ihns, hns]
          simp
        constructor
        · rw [ihrec, hrec]
          simp
        constructor
        · rw [ihrel, hrel]
          simp
        constructor
        · simp only [List.map_cons, fileUpdated]
          rw [ihfs, hf]
        constructor
        · simp only [List.map_cons, List.nodup_cons]
          constructor
          · intro hmem
            obtain ⟨kg, hg, hgname⟩ := List.mem_map.mp hmem
            exact (hmem₁ kg hg).2 hgname
          · exact ihnd
        · intro kg hg
          rcases List.mem_cons.mp hg with hhd | htl
          · subst hhd; exact hnotmem
          · exact (hmem₁ kg htl).1

theorem processProgram_ok {d : ProvDocument} {pnsPfx : String} {b : ProvBundle} {p : Program}
    {b' : ProvBundle} {p' : Program} (h : processProgram d pnsPfx b p = .ok (b', p')) :
    (∃ r : Run, p.runs.lookup (toString p.runs.length) = some r
      ∧ b'.records = b.records
          ++ [ProvRecord.mk RecKind.activity (pnsPfx ++ ":" ++ p.name) []
                (some r.start_time) (some r.end_time)])
    ∧ b'.namespaces = b.namespaces ++ [(p.name, strProgram p)]
    ∧ b'.relations = b.relations
    ∧ p' = { p with namespaceRef := some p.name,
                    provActivity := some (pnsPfx ++ ":" ++ p.name) }
    ∧ p.name ∉ b.namespaces.map Prod.fst
    ∧ p.runs ≠ [] := by
  unfold processProgram at h
  dsimp only at h
  split at h
  next e heq => exact Except.noConfusion h
  next b₁ heq =>
    obtain ⟨hb₁, hns⟩ := addNamespaceB_ok heq
    subst hb₁
    split at h
    next heq₂ => exact Except.noConfusion h
    next lastRun heq₂ =>
      split at h
      next e heq₃ => exact Except.noConfusion h
      next b₂ heq₃ =>
        have hb₂ := activityB_ok heq₃
        subst hb₂
        simp only [Except.ok.injEq, Prod.mk.injEq] at h
        obtain ⟨hb, hp⟩ := h
        subst hb; subst hp
        refine ⟨⟨lastRun, heq₂, by simp⟩, by simp, by simp, by simp, hns, ?_⟩
        intro hempty
        rw [hempty] at heq₂
        simp [List.lookup] at heq₂

theorem iterPrograms_ok {d : ProvDocument} {pnsPfx : String} :
    ∀ {ps : List (String × Program)} {b b' : ProvBundle} {ps' : List (String × Program)},
    iterPrograms d pnsPfx ps b = .ok (b', ps') →
    b'.namespaces = b.namespaces ++ ps.map (fun kp => (kp.2.name, strProgram kp.2))
    ∧ b'.records.map (fun r => (r.kind, r.id)) =
        b.records.map (fun r => (r.kind, r.id))
          ++ ps.map (fun kp => (RecKind.activity, pnsPfx ++ ":" ++ kp.2.name))
    ∧ b'.relations = b.relations
    ∧ ps' = ps.map (progUpdated pnsPfx)
    ∧ (∀ kp ∈ ps, kp.2.runs ≠ [])
    ∧ (∀ kp ∈ ps, kp.2.name ∉ b.namespaces.map Prod.fst) := by
  intro ps
  induction ps with
  | nil =>
    intro b b' ps' h
    simp only [iterPrograms, Except.ok.injEq, Prod.mk.injEq] at h
    obtain ⟨hb, hps⟩ := h
    subst hb; subst hps
    simp
  | cons kp rest ih =>
    intro b b' ps' h
    simp only [iterPrograms] at h
    split at h
    next e heq => exact Except.noConfusion h
    next b₁ p₁ heq =>
      obtain ⟨⟨r, hlook, hrecfull⟩, hns, hrel, hp, hnotmem, hruns⟩ := processProgram_ok heq
      split at h
      next e heq₂ => exact Except.noConfusion h
      next b₂ rest₂ heq₂ =>
        obtain ⟨ihns, ihrec, ihrel, ihps, ihruns, ihmem⟩ := ih heq₂
        simp only [Except.ok.injEq, Prod.mk.injEq] at h
        obtain ⟨hb, hps⟩ := h
        subst hb; subst hps
        have hmem₁ : ∀ kg ∈ rest, kg.2.name ∉ b.namespaces.map Prod.fst := by
          intro kg hg
          have := ihmem kg hg
          rw [hns] at this
          simp only [List.map_append, List.mem_append, List.map_cons, List.map_nil,
            List.mem_singleton, not_or] at this
          exact this.1
        constructor
        · rw [ihns, hns]
          simp
        constructor
        · rw [ihrec, hrecfull]
          simp
        constructor
        · rw [ihrel, hrel]
        constructor
        · simp only [List.map_cons, progUpdated]
          rw [ihps, hp]
        constructor
        · intro kg hg
          rcases List.mem_cons.mp hg with hhd | htl
          · subst hhd; exact hruns
          · exact ihruns kg htl
        · intro kg hg
          rcases List.mem_cons.mp hg with hhd | htl
          · subst hhd; exact hnotmem
          · exact hmem₁ kg htl

theorem iterSample_ok {d : ProvDocument} {s : Sample} {d' : ProvDocument} {s' : Sample}
    (h : iterSample d s = .ok (d', s')) :
    ∃ b : ProvBundle,
      d' = { d with bundles := d.bundles ++ [b] }
      ∧ b.namespaces = expectedBundleNs s
      ∧ b.records.map (fun r => (r.kind, r.id)) = expectedBundleRecs s
      ∧ b.relations = expectedBundleRels s
      ∧ s' = sampleUpdated s
      ∧ (∀ kp ∈ s.programs, kp.2.runs ≠ [])
      ∧ (s.files.map (fun kf => kf.2.name)).Nodup := by
  unfold iterSample at h
  dsimp only at h
  split at h
  next e heq => exact Except.noConfusion h
  next b₁ heq =>
    have hb₁ := entityB_ok heq
    subst hb₁
    split at h
    next e heq₂ => exact Except.noConfusion h
    next b₂ heq₂ =>
      obtain ⟨hb₂, -⟩ := addNamespaceB_ok heq₂
      subst hb₂
      split at h
      next e heq₃ => exact Except.noConfusion h
      next b₃ files' heq₃ =>
        obtain ⟨fns, frec, frel, hfiles, fnd, -⟩ := iterFiles_ok heq₃
        split at h
        next e heq₄ => exact Except.noConfusion h
        next b₄ programs' heq₄ =>
          obtain ⟨pns, prec, prel, hprogs, hruns, -⟩ := iterPrograms_ok heq₄
          simp only [Except.ok.injEq, Prod.mk.injEq] at h
          obtain ⟨hd, hs⟩ := h
          subst hd; subst hs
          refine ⟨b₄, rfl, ?_, ?_, ?_, ?_, hruns, fnd⟩
          · rw [pns, fns]
            simp [expectedBundleNs]
          · rw [prec, frec]
            simp [expectedBundleRecs]
          · rw [prel, frel]
            simp [expectedBundleRels]
          · rw [hfiles, hprogs]
            simp [sampleUpdated]

theorem iterSamples_ok :
    ∀ {ss : List (String × Sample)} {d d' : ProvDocument} {ss' : List (String × Sample)},
    iterSamples d ss = .ok (d', ss') →
    d'.namespaces = d.namespaces
    ∧ d'.records = d.records
    ∧ d'.relations = d.relations
    ∧ ∃ bs : List ProvBundle,
        d'.bundles = d.bundles ++ bs
        ∧ bs.map ProvBundle.namespaces = ss.map (fun ks => expectedBundleNs ks.2)
        ∧ bs.map (fun b => b.records.map (fun r => (r.kind, r.id)))
            = ss.map (fun ks => expectedBundleRecs ks.2)
        ∧ bs.map ProvBundle.relations = ss.map (fun ks => expectedBundleRels ks.2)
        ∧ ss' = ss.map (fun ks => (ks.1, sampleUpdated ks.2))
        ∧ (∀ ks ∈ ss, ∀ kp ∈ ks.2.programs, kp.2.runs ≠ [])
        ∧ (∀ ks ∈ ss, (ks.2.files.map (fun kf => kf.2.name)).Nodup) := by
  intro ss
  induction ss with
  | nil =>
    intro d d' ss' h
    simp only [iterSamples, Except.ok.injEq, Prod.mk.injEq] at h
    obtain ⟨hd, hss⟩ := h
    subst hd; subst hss
    exact ⟨rfl, rfl, rfl, [], by simp, by simp, by simp, by simp, by simp, by simp, by simp⟩
  | cons ks rest ih =>
    intro d d' ss' h
    simp only [iterSamples] at h
    split at h
    next e heq => exact Except.noConfusion h
    next d₁ s₁ heq =>
      obtain ⟨b, hd₁, hbns, hbrec, hbrel, hs₁, hruns, hnd⟩ := iterSample_ok heq
      split at h
      next e heq₂ => exact Except.noConfusion h
      next d₂ rest₂ heq₂ =>
        obtain ⟨ihns, ihrec, ihrel, bs, ihbundles, ihbns, ihbrec, ihbrel, ihss, ihruns, ihnd⟩ :=
          ih heq₂
        simp only [Except.ok.injEq, Prod.mk.injEq] at h
        obtain ⟨hd, hss⟩ := h
        subst hd; subst hss
        subst hd₁
        refine ⟨by simpa using ihns, by simpa using ihrec, by simpa using ihrel,
          b :: bs, ?_, ?_, ?_, ?_, ?_, ?_, ?_⟩
        · rw [ihbundles]
          simp
        · simp [hbns, ihbns]
        · simp [hbrec, ihbrec]
        · simp [hbrel, ihbrel]
        · simp only [List.map_cons]
          rw [hs₁, ihss]
        · intro kg hg
          rcases List.mem_cons.mp hg with hhd | htl
          · subst hhd; exact hruns
          · exact ihruns kg htl
        · intro kg hg
          rcases List.mem_cons.mp hg with hhd | htl
          · subst hhd; exact hnd
          · exact ihnd kg htl

theorem iterEnvs_ok {a : Bool} :
    ∀ {es : List (String × EnvProv)} {d d' : ProvDocument},
    iterEnvs d a es = .ok d' →
    d'.namespaces = d.namespaces ∧ d'.relations = d.relations ∧ d'.bundles = d.bundles := by
  intro es
  induction es with
  | nil =>
    intro d d' h
    simp only [iterEnvs, Except.ok.injEq] at h
    subst h
    exact ⟨rfl, rfl, rfl⟩
  | cons ue rest ih =>
    intro d d' h
    simp only [iterEnvs] at h
    split at h
    next e heq => exact Except.noConfusion h
    next d₁ heq =>
      have hd₁ := entityD_ok heq
      subst hd₁
      split at h
      next e heq₂ => exact Except.noConfusion h
      next d₂ heq₂ =>
        have hd₂ := agentD_ok heq₂
        subst hd₂
        obtain ⟨h₁, h₂, h₃⟩ := ih h
        exact ⟨by simpa using h₁, by simpa using h₂, by simpa using h₃⟩

theorem add_project_namespace_ok {d : ProvDocument} {p : Project} {a : Bool}
    {d' : ProvDocument} {p' : Project} (h : add_project_namespace d p a = .ok (d', p')) :
    d'.namespaces.map Prod.fst = d.namespaces.map Prod.fst ++ ["project"]
    ∧ d'.relations = d.relations
    ∧ d'.bundles = d.bundles
    ∧ p' = { p with namespaceRef := some "project",
                    entityRef := some ("project:" ++ strProject p) } := by
  unfold add_project_namespace at h
  dsimp only at h
  split at h
  next e heq => exact Except.noConfusion h
  next d₁ heq =>
    obtain ⟨hd₁, -⟩ := addNamespaceD_ok heq
    subst hd₁
    split at h
    next e heq₂ => exact Except.noConfusion h
    next d₂ heq₂ =>
      have hd₂ := entityD_ok heq₂
      subst hd₂
      simp only [Except.ok.injEq, Prod.mk.injEq] at h
      obtain ⟨hd, hp⟩ := h
      subst hd; subst hp
      refine ⟨by simp, by simp, by simp, by simp [strProject]⟩

theorem add_samples_namespace_ok {d : ProvDocument} {tag : String} {d' : ProvDocument}
    (h : add_samples_namespace d tag = .ok d') :
    d'.namespaces.map Prod.fst = d.namespaces.map Prod.fst ++ ["samples"]
    ∧ d'.records = d.records ∧ d'.relations = d.relations ∧ d'.bundles = d.bundles := by
  unfold add_samples_namespace at h
  obtain ⟨hd, -⟩ := addNamespaceD_ok h
  subst hd
  refine ⟨by simp, rfl, rfl, rfl⟩

theorem add_env_and_user_namespace_ok {d : ProvDocument} {p : Project} {a : Bool}
    {d' : ProvDocument} (h : add_env_and_user_namespace d p a = .ok d') :
    d'.namespaces.map Prod.fst = d.namespaces.map Prod.fst ++ ["envs", "users"]
    ∧ d'.relations = d.relations ∧ d'.bundles = d.bundles := by
  unfold add_env_and_user_namespace at h
  split at h
  next e heq => exact Except.noConfusion h
  next d₁ heq =>
    obtain ⟨hd₁, -⟩ := addNamespaceD_ok heq
    subst hd₁
    split at h
    next e heq₂ => exact Except.noConfusion h
    next d₂ heq₂ =>
      obtain ⟨hd₂, -⟩ := addNamespaceD_ok heq₂
      subst hd₂
      obtain ⟨h₁, h₂, h₃⟩ := iterEnvs_ok h
      refine ⟨?_, by simpa using h₂, by simpa using h₃⟩
      rw [h₁]
      simp

/-- Success-shape of a whole assembly: the four global namespace
prefixes actually registered, no relations outside bundles, one bundle
per sample with the expected local namespaces, records and relations,
the back-references written onto the returned project, every program
nonempty of runs, and per-sample file names pairwise distinct. -/
theorem build_ok {p : Project} {a : Bool} {doc : ProvDocument} {p' : Project}
    (h : BioProvDocument.build p a = .ok (doc, p')) :
    doc.namespaces.map Prod.fst = ["project", "samples", "envs", "users"]
    ∧ doc.relations = []
    ∧ doc.bundles.map ProvBundle.namespaces = p.samples.map (fun ks => expectedBundleNs ks.2)
    ∧ doc.bundles.map (fun b => b.records.map (fun r => (r.kind, r.id)))
        = p.samples.map (fun ks => expectedBundleRecs ks.2)
    ∧ doc.bundles.map ProvBundle.relations = p.samples.map (fun ks => expectedBundleRels ks.2)
    ∧ p' = { p with namespaceRef := some "project",
                    entityRef := some ("project:" ++ strProject p),
                    samples := p.samples.map (fun ks => (ks.1, sampleUpdated ks.2)) }
    ∧ (∀ ks ∈ p.samples, ∀ kp ∈ ks.2.programs, kp.2.runs ≠ [])
    ∧ (∀ ks ∈ p.samples, (ks.2.files.map (fun kf => kf.2.name)).Nodup) := by
  unfold BioProvDocument.build at h
  dsimp only at h
  split at h
  next e heq => exact Except.noConfusion h
  next d₁ p₁ heq =>
    obtain ⟨h₁ns, h₁rel, h₁bnd, hp₁⟩ := add_project_namespace_ok heq
    split at h
    next e heq₂ => exact Except.noConfusion h
    next d₂ heq₂ =>
      obtain ⟨h₂ns, h₂rec, h₂rel, h₂bnd⟩ := add_samples_namespace_ok heq₂
      split at h
      next e heq₃ => exact Except.noConfusion h
      next d₃ heq₃ =>
        have hlen : ¬ d₂.namespaces.length = 0 := by
          intro hzero
          have hnil : d₂.namespaces = [] := List.eq_nil_of_length_eq_zero hzero
          have hmap : d₂.namespaces.map Prod.fst = [] := by rw [hnil]; rfl
          rw [h₂ns, h₁ns] at hmap
          simp at hmap
        rw [add_activities_namespace, if_neg hlen] at heq₃
        simp only [Except.ok.injEq] at heq₃
        subst heq₃
        split at h
        next e heq₄ => exact Except.noConfusion h
        next d₄ heq₄ =>
          obtain ⟨h₄ns, h₄rel, h₄bnd⟩ := add_env_and_user_namespace_ok heq₄
          split at h
          next e heq₅ => exact Except.noConfusion h
          next d₅ samples' heq₅ =>
            obtain ⟨h₅ns, h₅rec, h₅rel, bs, h₅bnd, hbns, hbrec, hbrel, hss, hruns, hnd⟩ :=
              iterSamples_ok heq₅
            simp only [add_relationships, Except.ok.injEq, Prod.mk.injEq] at h
            obtain ⟨hdoc, hp'⟩ := h
            subst hdoc; subst hp'
            have hsamples : p₁.samples = p.samples := by rw [hp₁]
            rw [hsamples] at hbns hbrec hbrel hss hruns hnd
            have hbseq : d₅.bundles = bs := by
              rw [h₅bnd, h₄bnd, h₂bnd, h₁bnd]
              simp
            refine ⟨?_, ?_, ?_, ?_, ?_, ?_, hruns, hnd⟩
            · rw [h₅ns, h₄ns, h₂ns, h₁ns]
              simp
            · rw [h₅rel, h₄rel, h₂rel, h₁rel]
            · rw [hbseq, hbns]
            · rw [hbseq, hbrec]
            · rw [hbseq, hbrel]
            · rw [hss, hp₁]

theorem lookup_eq_of_mem_of_nodup {β : Type} :
    ∀ {l : List (String × β)} {k : String} {v : β},
    (l.map Prod.fst).Nodup → (k, v) ∈ l → l.lookup k = some v := by
  intro l
  induction l with
  | nil =>
    intro k v _ hm
    cases hm
  | cons a l ih =>
    intro k v hnd hm
    obtain ⟨a₁, a₂⟩ := a
    rw [List.map_cons, List.nodup_cons] at hnd
    rcases List.mem_cons.mp hm with hhd | htl
    · obtain ⟨hk, hv⟩ := Prod.mk.injEq .. ▸ hhd
      subst hk; subst hv
      simp [List.lookup]
    · have hk : ¬ (k == a₁) = true := by
        intro hbeq
        have hkeq : k = a₁ := by simpa using hbeq
        subst hkeq
        exact hnd.1 (List.mem_map.mpr ⟨(k, v), htl, rfl⟩)
      simp only [List.lookup, hk]
      exact ih hnd.2 htl

/-- C2: for a Program whose run map keys are exactly the stringified
integers 1..n (n ≥ 1, keys pairwise distinct as in a Python dict), the
program step of assembly selects the run stored under key `n` and the
Activity it creates carries exactly that run's start and end times. -/
theorem c2_last_run_selected (d : ProvDocument) (pnsPfx : String) (b : ProvBundle)
    (p : Program) (n : Nat) (r : Run) (b' : ProvBundle) (p' : Program)
    (hn : 1 ≤ n)
    (hkeys : (p.runs.map Prod.fst).Perm ((List.range n).map (fun i => toString (i + 1))))
    (hnd : (p.runs.map Prod.fst).Nodup)
    (hr : (toString n, r) ∈ p.runs)
    (hok : processProgram d pnsPfx b p = .ok (b', p')) :
    b'.records = b.records
      ++ [ProvRecord.mk RecKind.activity (pnsPfx ++ ":" ++ p.name) []
            (some r.start_time) (some r.end_time)] := by
  have hlen : p.runs.length = n := by
    have := hkeys.length_eq
    simpa using this
  have hlook : p.runs.lookup (toString p.runs.length) = some r := by
    rw [hlen]
    exact lookup_eq_of_mem_of_nodup hnd hr
  obtain ⟨⟨r₂, hlook₂, hrec⟩, -, -, -, -, -⟩ := processProgram_ok hok
  rw [hlook] at hlook₂
  obtain rfl : r₂ = r := by
    injection hlook₂ with h
    exact h.symm
  exact hrec

/-- Concrete input document for the C2 witness. -/
def wDoc : ProvDocument := { namespaces := [], records := [], relations := [], bundles := [] }

/-- Concrete input bundle for the C2 witness. -/
def wBundle : ProvBundle :=
  { identifier := "samples:S1", defaultNs := some "S1",
    namespaces := [], records := [], relations := [] }

/-- The bundle produced by the program step on the C2 witness inputs. -/
def wBundleAfter : ProvBundle :=
  { identifier := "samples:S1", defaultNs := some "S1",
    namespaces := [("prodigal", "prodigal")],
    records := [ProvRecord.mk RecKind.activity "S1.programs:prodigal" [] (some 0) (some 1)],
    relations := [] }

/-- The program value returned by the program step on the C2 witness
inputs. -/
def wProgramAfter : Program :=
  { name := "prodigal", runs := [("1", demoRun)],
    namespaceRef := some "prodigal", provActivity := some "S1.programs:prodigal" }

/-- Witness for C2: the demo program (runs keyed exactly by "1") at
n = 1; the created activity carries the run's start and end times. -/
theorem c2_witness :
    wBundleAfter.records = wBundle.records
      ++ [ProvRecord.mk RecKind.activity ("S1.programs" ++ ":" ++ demoProgram.name) []
            (some demoRun.start_time) (some demoRun.end_time)] :=
  c2_last_run_selected wDoc "S1.programs" wBundle demoProgram 1 demoRun wBundleAfter
    wProgramAfter (by decide) (by decide) (by decide) (by decide) rfl

/-- C1: assembling the demo project with default options registers only
the global namespace prefixes `project`, `samples`, `envs`, `users`; the
`activities` prefix is missing, because `_add_activities_namespace` only
adds it when the document still has zero namespaces, which is false by
the time it is called. -/
theorem c1_activities_namespace_missing :
    ((BioProvDocument.build demoProject true).map (fun r => r.1.namespaces.map Prod.fst)
        = .ok ["project", "samples", "envs", "users"])
    ∧ "activities" ∉ ["project", "samples", "envs", "users"] := by
  exact ⟨rfl, by decide⟩

/-- C4: in the demo project's bundle the registered local namespace
prefixes are `S1.files`, `reads` (the file) and `prodigal` (the
program); no `S1.programs` namespace is ever registered — the source
only uses that string to qualify activity identifiers. -/
theorem c4_programs_namespace_missing :
    ((BioProvDocument.build demoProject true).map
          (fun r => r.1.bundles.map (fun b => b.namespaces.map Prod.fst))
        = .ok [["S1.files", "reads", "prodigal"]])
    ∧ "S1.programs" ∉ ["S1.files", "reads", "prodigal"] := by
  exact ⟨rfl, by decide⟩

/-- Counterexample for C3: on a project whose program has zero runs,
assembly fails with the KeyError of the run lookup (key `"0"`), not with
`EmptyRunHistoryError`. -/
theorem c3_counterexample :
    BioProvDocument.build zeroRunProject true = .error (BioProvError.keyError "0")
    ∧ BioProvDocument.build zeroRunProject true ≠ .error BioProvError.emptyRunHistoryError := by
  have hrun : BioProvDocument.build zeroRunProject true
      = .error (BioProvError.keyError "0") := rfl
  refine ⟨hrun, ?_⟩
  intro h
  rw [hrun] at h
  injection h with h
  exact BioProvError.noConfusion h

/-- C3 (amended): a Project containing a Sample with a Program that has
zero runs never assembles to a document — the run lookup
`program.runs[str(len(program.runs))]` fails (a Python KeyError). -/
theorem c3_zero_runs_no_document (p : Project) (a : Bool) (ks : String) (s : Sample)
    (kp : String) (pr : Program)
    (hs : (ks, s) ∈ p.samples) (hp : (kp, pr) ∈ s.programs) (hruns : pr.runs = []) :
    (BioProvDocument.build p a).toOption = none := by
  cases hbuild : BioProvDocument.build p a with
  | error e => rfl
  | ok res =>
    obtain ⟨doc, p'⟩ := res
    obtain ⟨-, -, -, -, -, -, hprog, -⟩ := build_ok hbuild
    exact absurd hruns (hprog (ks, s) hs (kp, pr) hp)

/-- Witness for C3 (amended) at the zero-run project. -/
theorem c3_zero_runs_witness :
    (("S1", zeroRunSample) ∈ zeroRunProject.samples
      ∧ ("prodigal", zeroRunProgram) ∈ zeroRunSample.programs
      ∧ zeroRunProgram.runs = [])
    ∧ (BioProvDocument.build zeroRunProject true).toOption = none :=
  ⟨⟨by decide, by decide, rfl⟩,
    c3_zero_runs_no_document zeroRunProject true "S1" zeroRunSample "prodigal" zeroRunProgram
      (by decide) (by decide) rfl⟩

/-- C5: on a successful assembly, every sample's bundle holds exactly
one entity per File of the sample — the bundle's entity count is 1 (the
sample's own entity) plus the number of files — and its relation list is
exactly one derivation per File, from that File's entity to the Sample's
entity. -/
theorem c5_file_entities_and_derivations (p : Project) (a : Bool) (doc : ProvDocument)
    (p' : Project) (hok : BioProvDocument.build p a = .ok (doc, p')) :
    doc.bundles.map (fun b => b.records.countP (fun r => r.kind == RecKind.entity))
        = p.samples.map (fun ks => 1 + ks.2.files.length)
    ∧ doc.bundles.map ProvBundle.relations
        = p.samples.map (fun ks => expectedBundleRels ks.2) := by
  obtain ⟨-, -, -, hbrec, hbrel, -, -, -⟩ := build_ok hok
  refine ⟨?_, hbrel⟩
  have h₁ : doc.bundles.map (fun b => b.records.countP (fun r => r.kind == RecKind.entity))
      = doc.bundles.map (fun b =>
          (b.records.map (fun r => (r.kind, r.id))).countP (fun t => t.1 == RecKind.entity)) := by
    refine List.map_congr_left ?_
    intro b _
    rw [List.countP_map]
    rfl
  rw [h₁]
  have h₂ : doc.bundles.map (fun b =>
        (b.records.map (fun r => (r.kind, r.id))).countP (fun t => t.1 == RecKind.entity))
      = (doc.bundles.map (fun b => b.records.map (fun r => (r.kind, r.id)))).map
          (fun l => l.countP (fun t => t.1 == RecKind.entity)) := by
    rw [List.map_map]
    rfl
  rw [h₂, hbrec, List.map_map]
  refine List.map_congr_left ?_
  intro ks _
  show (expectedBundleRecs ks.2).countP (fun t => t.1 == RecKind.entity)
      = 1 + ks.2.files.length
  simp [expectedBundleRecs, List.countP_cons, Nat.add_comm, Function.comp_def,
    show (RecKind.entity == RecKind.entity) = true from rfl,
    show (RecKind.activity == RecKind.entity) = false from rfl]

/-- Witness for C5 at the demo project. -/
theorem c5_witness :
    demoDoc.bundles.map (fun b => b.records.countP (fun r => r.kind == RecKind.entity))
        = demoProject.samples.map (fun ks => 1 + ks.2.files.length)
    ∧ demoDoc.bundles.map ProvBundle.relations
        = demoProject.samples.map (fun ks => expectedBundleRels ks.2) :=
  c5_file_entities_and_derivations demoProject true demoDoc demoProjectAfter rfl

/-- C6: assembly is deterministic — equal Projects assemble to documents
with identical namespace prefixes (global and bundle-local), identical
node identifiers and identical relation lists. -/
theorem c6_deterministic (p₁ p₂ : Project) (a : Bool) (d₁ d₂ : ProvDocument)
    (q₁ q₂ : Project) (hp : p₁ = p₂)
    (h₁ : BioProvDocument.build p₁ a = .ok (d₁, q₁))
    (h₂ : BioProvDocument.build p₂ a = .ok (d₂, q₂)) :
    docNsNames d₁ = docNsNames d₂ ∧ allNodeIds d₁ = allNodeIds d₂
      ∧ docRelations d₁ = docRelations d₂ := by
  subst hp
  rw [h₁] at h₂
  simp only [Except.ok.injEq, Prod.mk.injEq] at h₂
  obtain ⟨hd, -⟩ := h₂
  subst hd
  exact ⟨rfl, rfl, rfl⟩

/-- Witness for C6: the demo project assembled twice. -/
theorem c6_witness :
    docNsNames demoDoc = docNsNames demoDoc ∧ allNodeIds demoDoc = allNodeIds demoDoc
      ∧ docRelations demoDoc = docRelations demoDoc :=
  c6_deterministic demoProject demoProject true demoDoc demoDoc demoProjectAfter
    demoProjectAfter rfl rfl rfl

/-- Counterexample for C7: on the project with two same-named files in
one sample, assembly fails with `DuplicateNamespaceError` for the
second file's per-file namespace (prefix `reads`), not with
`DuplicateNodeError`. -/
theorem c7_counterexample :
    BioProvDocument.build dupProject true
        = .error (BioProvError.duplicateNamespaceError "reads")
    ∧ BioProvDocument.build dupProject true
        ≠ .error (BioProvError.duplicateNodeError "S1.files:reads") := by
  have hrun : BioProvDocument.build dupProject true
      = .error (BioProvError.duplicateNamespaceError "reads") := rfl
  refine ⟨hrun, ?_⟩
  intro h
  rw [hrun] at h
  injection h with h
  exact BioProvError.noConfusion h

/-- C7 (amended): a Project containing a Sample with two distinct File
entries sharing a name never assembles to a document — on a successful
assembly the per-file bundle namespaces force pairwise distinct file
names within each sample. -/
theorem c7_duplicate_name_no_document (p : Project) (a : Bool) (ks : String) (s : Sample)
    (k₁ k₂ : String) (f₁ f₂ : File)
    (hs : (ks, s) ∈ p.samples) (h₁ : (k₁, f₁) ∈ s.files) (h₂ : (k₂, f₂) ∈ s.files)
    (hk : k₁ ≠ k₂) (hname : f₁.name = f₂.name) :
    (BioProvDocument.build p a).toOption = none := by
  cases hbuild : BioProvDocument.build p a with
  | error e => rfl
  | ok res =>
    obtain ⟨doc, p'⟩ := res
    obtain ⟨-, -, -, -, -, -, -, hnd⟩ := build_ok hbuild
    have hnds := hnd (ks, s) hs
    have heq := List.inj_on_of_nodup_map hnds h₁ h₂ hname
    exact absurd (congrArg Prod.fst heq) hk

/-- Witness for C7 (amended) at the duplicate-name project. -/
theorem c7_witness :
    (("S1", dupSample) ∈ dupProject.samples
      ∧ ("f1", demoFile) ∈ dupSample.files ∧ ("f2", demoFileDup) ∈ dupSample.files
      ∧ ("f1" : String) ≠ "f2" ∧ demoFile.name = demoFileDup.name)
    ∧ (BioProvDocument.build dupProject true).toOption = none :=
  ⟨⟨by decide, by decide, by decide, by decide, rfl⟩,
    c7_duplicate_name_no_document dupProject true "S1" dupSample "f1" "f2" demoFile
      demoFileDup (by decide) (by decide) (by decide) (by decide) rfl⟩

/-- Counterexample for C8: assembling the demo project succeeds but
returns the project with back-references written onto it, which differs
from the input project. -/
theorem c8_counterexample :
    (BioProvDocument.build demoProject true).toOption.map Prod.snd = some demoProjectAfter
    ∧ demoProjectAfter ≠ demoProject := by
  exact ⟨rfl, by decide⟩

/-- Erase the back-reference written onto a File. -/
def File.scrub (f : File) : File := { f with namespaceRef := none, provEntity := none }

/-- Erase the back-references written onto a Program. -/
def Program.scrub (p : Program) : Program := { p with namespaceRef := none, provActivity := none }

/-- Erase the back-references written onto a Sample and its children. -/
def Sample.scrub (s : Sample) : Sample :=
  { s with provBundle := none, provEntity := none,
           files := s.files.map (fun kf => (kf.1, kf.2.scrub)),
           programs := s.programs.map (fun kp => (kp.1, kp.2.scrub)) }

/-- Erase the back-references written onto a Project and its children. -/
def Project.scrub (p : Project) : Project :=
  { p with namespaceRef := none, entityRef := none,
           samples := p.samples.map (fun ks => (ks.1, ks.2.scrub)) }

/-- C8 (amended): assembly leaves every pre-existing domain field (tags,
names, paths, flags, metadata, run histories, timestamps) unchanged; the
only fields it writes are the back-references (`namespace`, `entity`,
`ProvBundle`, `ProvEntity`, `ProvActivity`) onto the Project, its
Samples, Files and Programs. -/
theorem c8_backrefs_only (p : Project) (a : Bool) (doc : ProvDocument) (p' : Project)
    (hok : BioProvDocument.build p a = .ok (doc, p')) :
    Project.scrub p' = Project.scrub p := by
  obtain ⟨-, -, -, -, -, hp', -, -⟩ := build_ok hok
  subst hp'
  simp [Project.scrub, Sample.scrub, File.scrub, Program.scrub, sampleUpdated,
    fileUpdated, progUpdated, List.map_map, Function.comp]

/-- Witness for C8 (amended) at the demo project. -/
theorem c8_witness : Project.scrub demoProjectAfter = Project.scrub demoProject :=
  c8_backrefs_only demoProject true demoDoc demoProjectAfter rfl

/-- C9: on a successful assembly each sample's bundle registers, after
the `<sample>.files` namespace, one bundle-local namespace per File
whose prefix is the File's bare name and whose uri is the File's path,
and one per Program whose prefix is the Program's bare name — so two
domain objects of one sample sharing a bare name target the same
bundle-local prefix. -/
theorem c9_bare_name_namespaces (p : Project) (a : Bool) (doc : ProvDocument)
    (p' : Project) (hok : BioProvDocument.build p a = .ok (doc, p')) :
    doc.bundles.map ProvBundle.namespaces = p.samples.map (fun ks => expectedBundleNs ks.2) :=
  (build_ok hok).2.2.1

/-- Witness for C9 at the demo project. -/
theorem c9_witness :
    demoDoc.bundles.map ProvBundle.namespaces
      = demoProject.samples.map (fun ks => expectedBundleNs ks.2) :=
  c9_bare_name_namespaces demoProject true demoDoc demoProjectAfter rfl

/-- C10: a successfully assembled document has no document-level
relations and every relation in every bundle is a derivation — the
relation-wiring pass `_add_relationships` adds nothing, and the sample
loop only adds `wasDerivedFrom` edges. -/
theorem c10_only_derivations (p : Project) (a : Bool) (doc : ProvDocument) (p' : Project)
    (hok : BioProvDocument.build p a = .ok (doc, p')) :
    doc.relations = [] ∧ ∀ b ∈ doc.bundles, ∀ r ∈ b.relations, r.kind = RelKind.derivation := by
  obtain ⟨-, hrel, -, -, hbrel, -, -, -⟩ := build_ok hok
  refine ⟨hrel, ?_⟩
  intro b hb r hr
  have hmem : b.relations ∈ doc.bundles.map ProvBundle.relations :=
    List.mem_map_of_mem ProvBundle.relations hb
  rw [hbrel] at hmem
  obtain ⟨ks, -, heq⟩ := List.mem_map.mp hmem
  rw [← heq] at hr
  unfold expectedBundleRels at hr
  obtain ⟨kf, -, hkf⟩ := List.mem_map.mp hr
  rw [← hkf]

/-- Witness for C10 at the demo project. -/
theorem c10_witness :
    demoDoc.relations = []
    ∧ ∀ b ∈ demoDoc.bundles, ∀ r ∈ b.relations, r.kind = RelKind.derivation :=
  c10_only_derivations demoProject true demoDoc demoProjectAfter rfl
